import Mathlib

/-!
# SmartPath core algorithms: a shallow embedding

This file embeds the spaced-repetition flashcard engine and the
grade-trend / performance-analytics subsystem of the SmartPath backend
(`backend/utils.py` and the review-processing step of
`backend/services.py`) and proves the specified properties about them.

Modelling conventions:
* Python `float` values are modelled as exact rationals (`ℚ`); every
  constant appearing in these functions is decimal, so the ideal
  arithmetic is the intended one.
* Python `datetime` values are modelled as a rational number of days
  since an arbitrary epoch; `timedelta(days := d)` is addition of `d`,
  and `(a - b).days` is `⌊a - b⌋` (Python's `timedelta.days` floors).
* Python `dict` values are modelled as association lists in insertion
  order; `d.get(k, v)` is `(l.lookup k).getD v`.
* Python's `list.sort(key, reverse := True)` is a stable descending
  sort; it is embedded as `List.mergeSort` with the `≥`-on-key order,
  which is sorted and stable, hence produces the identical list.
* `int(x)` on a float truncates toward zero.
-/

namespace SmartPath

/-- Python `str.upper()` (ASCII case mapping, as used on grade letters). -/
def pyUpper (s : String) : String := ⟨s.data.map Char.toUpper⟩

/-- Python `str.strip()`: remove leading and trailing whitespace. -/
def pyStrip (s : String) : String :=
  ⟨((s.data.dropWhile Char.isWhitespace).reverse.dropWhile Char.isWhitespace).reverse⟩

/-- Python `int(x)` applied to a float: truncation toward zero. -/
def pyInt (q : ℚ) : ℤ := if q < 0 then ⌈q⌉ else ⌊q⌋

/-- Table `KENYAN_GRADE_SCALE` from `backend/utils.py`: letter grade → 0–12 ordinal. -/
def KENYAN_GRADE_SCALE : List (String × ℚ) :=
  [("A", 12.0), ("A-", 11.0), ("B+", 10.0), ("B", 9.0), ("B-", 8.0), ("C+", 7.0),
   ("C", 6.0), ("C-", 5.0), ("D+", 4.0), ("D", 3.0), ("D-", 2.0), ("E", 1.0)]

/-- Function `grade_to_numeric` from `backend/utils.py`. -/
def grade_to_numeric (grade : String) : ℚ :=
  let grade := pyStrip (pyUpper grade)
  (KENYAN_GRADE_SCALE.lookup grade).getD 0.0

/-- Function `numeric_to_grade` from `backend/utils.py`. -/
def numeric_to_grade (numeric : ℚ) : String :=
  if numeric ≥ 11.5 then "A"
  else if numeric ≥ 10.5 then "A-"
  else if numeric ≥ 9.5 then "B+"
  else if numeric ≥ 8.5 then "B"
  else if numeric ≥ 7.5 then "B-"
  else if numeric ≥ 6.5 then "C+"
  else if numeric ≥ 5.5 then "C"
  else if numeric ≥ 4.5 then "C-"
  else if numeric ≥ 3.5 then "D+"
  else if numeric ≥ 2.5 then "D"
  else if numeric ≥ 1.5 then "D-"
  else "E"

/-- Function `analyze_grade_trend` from `backend/utils.py`: OLS slope of grade vs index,
classified against the fixed ±0.1 thresholds. -/
def analyze_grade_trend (grades_history : List ℚ) : String :=
  if grades_history.length < 2 then "stable"
  else
    let n : ℕ := grades_history.length
    let sum_x : ℚ := ((List.range n).map (fun i => (i : ℚ))).sum
    let sum_y : ℚ := grades_history.sum
    let sum_xy : ℚ := ((List.range n).map (fun (i : ℕ) => (i : ℚ) * grades_history.getD i 0)).sum
    let sum_x2 : ℚ := ((List.range n).map (fun i => (i : ℚ) ^ 2)).sum
    let slope : ℚ :=
      if (n : ℚ) * sum_x2 - sum_x ^ 2 ≠ 0 then
        ((n : ℚ) * sum_xy - sum_x * sum_y) / ((n : ℚ) * sum_x2 - sum_x ^ 2)
      else 0
    if slope > 0.1 then "improving"
    else if slope < -0.1 then "declining"
    else "stable"

/-- Function `predict_next_grade` from `backend/utils.py`. -/
def predict_next_grade (grades_history : List ℚ) : ℚ :=
  if grades_history = [] then 0.0
  else if grades_history.length = 1 then grades_history.getD 0 0
  else
    let trend := analyze_grade_trend grades_history
    let recent_avg : ℚ :=
      (grades_history.drop (grades_history.length - 3)).sum /
        ((min 3 grades_history.length : ℕ) : ℚ)
    if trend = "improving" then min 12.0 (recent_avg + 0.5)
    else if trend = "declining" then max 1.0 (recent_avg - 0.3)
    else recent_avg

/-- Function `calculate_study_hours_needed` from `backend/utils.py`.  `current_date`
(defaulting to the wall clock in Python) is passed explicitly; a `none`
exam date is the Python `None` default. -/
def calculate_study_hours_needed (weak_subjects : List String)
    (exam_date : Option ℚ) (current_date : ℚ) : List (String × ℚ) :=
  let exam_date := exam_date.getD (current_date + 90)
  let days_available : ℤ := ⌊exam_date - current_date⌋
  let days_available : ℤ := if days_available ≤ 0 then 90 else days_available
  let total_subjects := weak_subjects.length
  if total_subjects = 0 then []
  else weak_subjects.map fun subject => (subject, 2.5 * (days_available : ℚ) / 7)

/-- Function `prioritize_study_topics` from `backend/utils.py`.  The final
`priorities.sort(key := score, reverse := True)` (a stable descending sort)
is embedded as a merge sort by `≥` on the score. -/
def prioritize_study_topics (subjects : List String)
    (grades : List (String × String))
    (exam_weights : Option (List (String × ℚ))) : List (String × ℤ) :=
  let priorities := subjects.map fun subject =>
    let grade := (grades.lookup subject).getD "E"
    let grade_numeric := grade_to_numeric grade
    let priority : ℚ := 12.0 - grade_numeric
    let priority : ℚ :=
      match exam_weights with
      | some ws =>
        match ws.lookup subject with
        | some w => priority * w
        | none => priority
      | none => priority
    (subject, pyInt (priority * 10))
  priorities.mergeSort fun a b => decide (b.2 ≤ a.2)

/-- The `intervals` table of `calculate_next_review_date` in `backend/utils.py`. -/
def intervals : List (String × List ℚ) :=
  [("easy", [1, 3, 7, 14, 30]), ("medium", [1, 2, 5, 10, 21]), ("hard", [1, 1, 3, 7, 14])]

/-- Function `calculate_next_review_date` from `backend/utils.py` (Leitner scheduling). -/
def calculate_next_review_date (last_reviewed : ℚ) (difficulty : String)
    (correct : Bool) (times_reviewed : ℕ) : ℚ :=
  let interval_list := (intervals.lookup difficulty).getD ((intervals.lookup "medium").getD [])
  let interval_days : ℚ :=
    if times_reviewed < interval_list.length then
      if correct then interval_list.getD times_reviewed 0
      else interval_list.getD 0 0
    else interval_list.getLastD 0
  last_reviewed + interval_days

/-- Function `calculate_mastery_level` from `backend/utils.py`. -/
def calculate_mastery_level (times_reviewed times_correct : ℕ)
    (difficulty : String) : ℚ :=
  if times_reviewed = 0 then 0.0
  else
    let accuracy : ℚ := (times_correct : ℚ) / (times_reviewed : ℚ)
    let difficulty_multiplier : List (String × ℚ) :=
      [("easy", 1.0), ("medium", 0.9), ("hard", 0.8)]
    let mastery := accuracy * ((difficulty_multiplier.lookup difficulty).getD 0.9)
    min 1.0 mastery

/-- Function `adjust_difficulty` from `backend/utils.py`. -/
def adjust_difficulty (current_difficulty : String)
    (times_reviewed times_correct : ℕ) : String :=
  if times_reviewed < 3 then current_difficulty
  else
    let accuracy : ℚ := (times_correct : ℚ) / (times_reviewed : ℚ)
    let difficulty_order := ["easy", "medium", "hard"]
    let current_index :=
      if current_difficulty ∈ difficulty_order then
        difficulty_order.indexOf current_difficulty
      else 1
    if accuracy ≥ 0.8 ∧ current_index < difficulty_order.length - 1 then
      difficulty_order.getD (current_index + 1) current_difficulty
    else if accuracy < 0.5 ∧ current_index > 0 then
      difficulty_order.getD (current_index - 1) current_difficulty
    else current_difficulty

/-- The flashcard row fields read and written by
`FlashcardService.review_flashcard` in `backend/services.py`. -/
structure Flashcard where
  times_reviewed : ℕ
  times_correct : ℕ
  difficulty : String
  last_reviewed : ℚ
  next_review_date : ℚ
  deriving Repr, DecidableEq

/-- The state-update core of `FlashcardService.review_flashcard`
(`backend/services.py`, lines 384–419): increment the counters, then compute
mastery, the next review date and the new difficulty, and commit.  `now` is
`datetime.utcnow()`.  Returns the committed row and the mastery level. -/
def review_flashcard (flashcard : Flashcard) (correct : Bool) (now : ℚ) :
    Flashcard × ℚ :=
  let times_reviewed := flashcard.times_reviewed + 1
  let times_correct := if correct then flashcard.times_correct + 1 else flashcard.times_correct
  let last_reviewed := now
  let mastery := calculate_mastery_level times_reviewed times_correct flashcard.difficulty
  let next_review_date :=
    calculate_next_review_date last_reviewed flashcard.difficulty correct times_reviewed
  let new_difficulty := adjust_difficulty flashcard.difficulty times_reviewed times_correct
  ({ times_reviewed := times_reviewed
     times_correct := times_correct
     difficulty := new_difficulty
     last_reviewed := last_reviewed
     next_review_date := next_review_date }, mastery)

/-- The twelve valid letter grades, in scale order. -/
def validGrades : List String :=
  ["A", "A-", "B+", "B", "B-", "C+", "C", "C-", "D+", "D", "D-", "E"]

/-- Spec-side ordinary-least-squares slope of value against index `0..n-1`,
written from the specification's closed formula (0 when the denominator is 0). -/
def slopeOLS (l : List ℚ) : ℚ :=
  let n : ℕ := l.length
  let sx : ℚ := ((List.range n).map (fun i => (i : ℚ))).sum
  let sy : ℚ := l.sum
  let sxy : ℚ := ((List.range n).map (fun (i : ℕ) => (i : ℚ) * l.getD i 0)).sum
  let sx2 : ℚ := ((List.range n).map (fun i => (i : ℚ) ^ 2)).sum
  if (n : ℚ) * sx2 - sx ^ 2 = 0 then 0
  else ((n : ℚ) * sxy - sx * sy) / ((n : ℚ) * sx2 - sx ^ 2)

/-- Spec-side promotion by exactly one tier toward `hard` (`hard` is the top). -/
def promoteTier : String → String
  | "easy" => "medium"
  | "medium" => "hard"
  | d => d

/-- Spec-side demotion by exactly one tier toward `easy` (`easy` is the bottom). -/
def demoteTier : String → String
  | "hard" => "medium"
  | "medium" => "easy"
  | d => d

/-- Spec-side number of study days available: the floor of the gap to the exam
date, with a 90-day default when the exam date is absent or the gap is
non-positive. -/
def days_available (exam_date : Option ℚ) (current_date : ℚ) : ℤ :=
  let d := ⌊exam_date.getD (current_date + 90) - current_date⌋
  if d ≤ 0 then 90 else d

end SmartPath

namespace SmartPath

/-! ## Claims C3 and C5: grade-scale round trip and the `[6, 7, 9]` scenario -/

/-- Claim C3: for every one of the twelve valid letter grades `g`,
`numeric_to_grade (grade_to_numeric g) = g` — the descending inclusive bucket
boundaries of `numeric_to_grade` map each ordinal table value back to the
letter it came from. -/
theorem grade_roundtrip_valid : ∀ g ∈ validGrades,
    numeric_to_grade (grade_to_numeric g) = g := by
  simp only [validGrades, List.mem_cons, List.not_mem_nil, or_false]
  rintro g (rfl | rfl | rfl | rfl | rfl | rfl | rfl | rfl | rfl | rfl | rfl | rfl) <;>
    · simp [grade_to_numeric, pyStrip, pyUpper, KENYAN_GRADE_SCALE, List.lookup]
      norm_num [numeric_to_grade]

/-- Witness for C3: the round trip at the concrete grade `B+`. -/
theorem grade_roundtrip_valid_witness :
    numeric_to_grade (grade_to_numeric "B+") = "B+" :=
  grade_roundtrip_valid "B+" (by decide)

/-- Counterexample for C5 as stated: on the history `[6, 7, 9]`,
`predict_next_grade` returns `47/6 = 7.8333…`, not the claimed `7.67`
(the mean of the last three grades is `22/3`, and `22/3 + 1/2 = 47/6`). -/
theorem predict_679_ne_767_counterexample :
    predict_next_grade [6, 7, 9] = 47 / 6 ∧ (47 / 6 : ℚ) ≠ 7.67 := by
  constructor
  · norm_num [predict_next_grade, analyze_grade_trend, List.range_succ, List.cons_ne_nil]
  · norm_num

/-- Claim C5 (amended): on the grade history `[6, 7, 9]` the OLS slope
exceeds 0.1, so `analyze_grade_trend` returns `improving`, and
`predict_next_grade` returns `min 12 (mean [6, 7, 9] + 0.5) = 47/6 ≈ 7.83`
(not `7.67`: the spec's arithmetic slipped). -/
theorem trend_and_predict_679 :
    analyze_grade_trend [6, 7, 9] = "improving" ∧
      predict_next_grade [6, 7, 9] = min 12.0 ((6 + 7 + 9) / 3 + 0.5) := by
  constructor
  · norm_num [analyze_grade_trend, List.range_succ]
  · norm_num [predict_next_grade, analyze_grade_trend, List.range_succ, List.cons_ne_nil]

/-! ## Claim C1: incorrect answers and the interval-table reset -/

/-- Counterexample for C1 as stated: at a prior review count at the table
length (5), an incorrect answer does not reset to `table[0] = 1` day — the
code takes the `times_reviewed < len` branch to be false and returns the
maximum interval, here 30 days for `easy`. -/
theorem incorrect_at_table_len_counterexample :
    calculate_next_review_date 0 "easy" false 5 = 0 + 30 ∧ (0 + 30 : ℚ) ≠ 0 + 1 := by
  constructor
  · norm_num [calculate_next_review_date, intervals, List.lookup]
  · norm_num

/-- Claim C1 (amended): for every last-review time, every difficulty in
{easy, medium, hard}, and every prior review count `n < 5` (the length of
each difficulty's interval table), `calculate_next_review_date` with
`correct = false` returns `last_reviewed + table[0] = last_reviewed + 1` day;
at or beyond the table length the maximum interval is used instead,
regardless of correctness. -/
theorem incorrect_resets_below_table_len (last : ℚ) (difficulty : String)
    (hd : difficulty = "easy" ∨ difficulty = "medium" ∨ difficulty = "hard")
    (n : ℕ) (hn : n < 5) :
    calculate_next_review_date last difficulty false n = last + 1 := by
  rcases hd with rfl | rfl | rfl <;>
    · simp [calculate_next_review_date, intervals, List.lookup, hn]

/-- Witness for C1 (amended): an incorrect answer on a `medium` card with
prior count 3 is rescheduled exactly 1 day out. -/
theorem incorrect_resets_below_table_len_witness :
    calculate_next_review_date 10 "medium" false 3 = 10 + 1 :=
  incorrect_resets_below_table_len 10 "medium" (Or.inr (Or.inl rfl)) 3 (by decide)

/-! ## Claim C2: the review event passes post-increment counters -/

/-- Claim C2 is the documented intent, but the code violates it: on a card
with pre-event counters `times_reviewed = times_correct = 2` and difficulty
`medium`, a correct review at time `t = 100` commits
`next_review_date = t + 10` — `calculate_next_review_date` called with the
incremented count 3 (`medium` table index 3 = 10 days) — whereas the claimed
pre-increment call with count 2 gives `t + 5`; likewise the committed
difficulty is `adjust_difficulty` of the post-increment counters `(3, 3)`
(promoting to `hard`), not of the pre-event counters `(2, 2)` (a no-op). -/
theorem review_flashcard_uses_post_increment_count :
    (review_flashcard ⟨2, 2, "medium", 0, 0⟩ true 100).1.next_review_date =
        calculate_next_review_date 100 "medium" true 3 ∧
      calculate_next_review_date 100 "medium" true 3 = 100 + 10 ∧
      calculate_next_review_date 100 "medium" true 2 = 100 + 5 ∧
      (review_flashcard ⟨2, 2, "medium", 0, 0⟩ true 100).1.difficulty = "hard" ∧
      adjust_difficulty "medium" 2 2 = "medium" := by
  refine ⟨rfl, ?_, ?_, ?_, ?_⟩
  · simp [calculate_next_review_date, intervals, List.lookup]
  · simp [calculate_next_review_date, intervals, List.lookup]
  · simp [review_flashcard, adjust_difficulty, List.indexOf]
    norm_num [List.findIdx, List.findIdx.go]
    decide
  · simp [adjust_difficulty]

end SmartPath

namespace SmartPath

/-! ## Claim C10: scheduling is total and bounded -/

/-- The interval chosen by `calculate_next_review_date` is always an entry of
the interval table in use: the guarded index never leaves the table. -/
lemma interval_choice_mem (L : List ℚ) (hL : L ≠ []) (n : ℕ) (c : Bool) :
    (if n < L.length then (if c then L.getD n 0 else L.getD 0 0) else L.getLastD 0) ∈ L := by
  split
  · next h =>
    split
    · rw [List.getD_eq_getElem L 0 h]
      exact List.getElem_mem h
    · have h0 : 0 < L.length := List.length_pos.mpr hL
      rw [List.getD_eq_getElem L 0 h0]
      exact List.getElem_mem h0
  · rw [List.getLastD_eq_getLast? , List.getLast?_eq_getLast L hL, Option.getD_some]
    exact List.getLast_mem hL

/-- The gap scheduled by `calculate_next_review_date` is an entry of the
difficulty's interval table (the `medium` table for unrecognized strings). -/
lemma interval_sub (last : ℚ) (d : String) (c : Bool) (n : ℕ) :
    calculate_next_review_date last d c n - last ∈
      ((intervals.lookup d).getD ((intervals.lookup "medium").getD [])) := by
  have h := interval_choice_mem ((intervals.lookup d).getD ((intervals.lookup "medium").getD []))
    ?_ n c
  · rw [calculate_next_review_date]
    simpa using h
  · by_cases h1 : d = "easy"
    · subst h1; simp [intervals, List.lookup]
    · by_cases h2 : d = "medium"
      · subst h2; simp [intervals, List.lookup]
      · by_cases h3 : d = "hard"
        · subst h3; simp [intervals, List.lookup]
        · have e1 : (d == "easy") = false := beq_eq_false_iff_ne.mpr h1
          have e2 : (d == "medium") = false := beq_eq_false_iff_ne.mpr h2
          have e3 : (d == "hard") = false := beq_eq_false_iff_ne.mpr h3
          simp [intervals, List.lookup, e1, e2, e3]

/-- Membership in a five-element list, as an explicit disjunction. -/
lemma mem_five {r a b c d e : ℚ} (h : r ∈ [a, b, c, d, e]) :
    r = a ∨ r = b ∨ r = c ∨ r = d ∨ r = e := by simpa using h

/-- Claim C10: for every last-review time, every difficulty string (including
unrecognized strings, which fall back to the `medium` table), every
correctness flag and every review count, `calculate_next_review_date` is total
and returns a date strictly after the last review: later by at least 1 day and
at most 30 days, by at most 14 days when the difficulty is `hard`, and by at
most 21 days when it is neither `easy` nor `hard` (i.e. `medium` or
unrecognized). -/
theorem next_review_date_bounds (last : ℚ) (d : String) (c : Bool) (n : ℕ) :
    1 ≤ calculate_next_review_date last d c n - last ∧
      calculate_next_review_date last d c n - last ≤ 30 ∧
      (d = "hard" → calculate_next_review_date last d c n - last ≤ 14) ∧
      (d ≠ "easy" → d ≠ "hard" → calculate_next_review_date last d c n - last ≤ 21) := by
  have hmem := interval_sub last d c n
  by_cases h1 : d = "easy"
  · subst h1
    simp only [intervals, List.lookup] at hmem
    simp only [beq_self_eq_true, Option.getD_some] at hmem
    rcases mem_five hmem with h|h|h|h|h <;> rw [h] <;>
      exact ⟨by norm_num, by norm_num, fun hh => absurd hh (by decide),
        fun hne _ => absurd rfl hne⟩
  · by_cases h2 : d = "medium"
    · subst h2
      simp only [intervals, List.lookup] at hmem
      simp only [show (("medium":String) == "easy") = false from rfl,
        beq_self_eq_true, Option.getD_some] at hmem
      rcases mem_five hmem with h|h|h|h|h <;> rw [h] <;>
        exact ⟨by norm_num, by norm_num, fun hh => absurd hh (by decide),
          fun _ _ => by norm_num⟩
    · by_cases h3 : d = "hard"
      · subst h3
        simp only [intervals, List.lookup] at hmem
        simp only [show (("hard":String) == "easy") = false from rfl,
          show (("hard":String) == "medium") = false from rfl,
          beq_self_eq_true, Option.getD_some] at hmem
        rcases mem_five hmem with h|h|h|h|h <;> rw [h] <;>
          exact ⟨by norm_num, by norm_num, fun _ => by norm_num,
            fun _ hne => absurd rfl hne⟩
      · have e1 : (d == "easy") = false := beq_eq_false_iff_ne.mpr h1
        have e2 : (d == "medium") = false := beq_eq_false_iff_ne.mpr h2
        have e3 : (d == "hard") = false := beq_eq_false_iff_ne.mpr h3
        simp only [intervals, List.lookup, e1, e2, e3, beq_self_eq_true,
          Option.getD_none, Option.getD_some] at hmem
        rcases mem_five hmem with h|h|h|h|h <;> rw [h] <;>
          exact ⟨by norm_num, by norm_num, fun hh => absurd hh h3,
            fun _ _ => by norm_num⟩

/-- Witness for C10: a `medium` card at review count 7 is rescheduled between
1 and 21 days out. -/
theorem next_review_date_bounds_witness :
    1 ≤ calculate_next_review_date 0 "medium" true 7 - 0 ∧
      calculate_next_review_date 0 "medium" true 7 - 0 ≤ 21 :=
  ⟨(next_review_date_bounds 0 "medium" true 7).1,
   (next_review_date_bounds 0 "medium" true 7).2.2.2 (by decide) (by decide)⟩

end SmartPath

namespace SmartPath

/-! ## Claim C8: the difficulty adapter -/

/-- Unfolding of `adjust_difficulty` at `easy` once the minimum sample is
reached: promotion needs 0.8 accuracy, and demotion below `easy` is
impossible. -/
lemma adjust_easy (tr tc : ℕ) (h3 : ¬ tr < 3) :
    adjust_difficulty "easy" tr tc =
      if (tc : ℚ) / (tr : ℚ) ≥ 0.8 then "medium" else "easy" := by
  have hidx : List.indexOf "easy" ["easy", "medium", "hard"] = 0 := by decide
  simp [adjust_difficulty, h3, hidx]

/-- Unfolding of `adjust_difficulty` at `medium` once the minimum sample is
reached. -/
lemma adjust_medium (tr tc : ℕ) (h3 : ¬ tr < 3) :
    adjust_difficulty "medium" tr tc =
      if (tc : ℚ) / (tr : ℚ) ≥ 0.8 then "hard"
      else if (tc : ℚ) / (tr : ℚ) < 0.5 then "easy" else "medium" := by
  have hidx : List.indexOf "medium" ["easy", "medium", "hard"] = 1 := by decide
  simp [adjust_difficulty, h3, hidx]

/-- Unfolding of `adjust_difficulty` at `hard` once the minimum sample is
reached: promotion above `hard` is impossible. -/
lemma adjust_hard (tr tc : ℕ) (h3 : ¬ tr < 3) :
    adjust_difficulty "hard" tr tc =
      if (tc : ℚ) / (tr : ℚ) < 0.5 then "medium" else "hard" := by
  have hidx : List.indexOf "hard" ["easy", "medium", "hard"] = 2 := by decide
  simp [adjust_difficulty, h3, hidx]

/-- Claim C8: for every current difficulty in {easy, medium, hard} and counts
`times_correct ≤ times_reviewed`: below 3 reviews `adjust_difficulty` is a
no-op for any accuracy; from 3 reviews on, with accuracy
`times_correct / times_reviewed`, it promotes exactly one tier toward `hard`
when accuracy ≥ 0.8 (a no-op at `hard`), demotes exactly one tier toward
`easy` when accuracy < 0.5 (a no-op at `easy`), and is unchanged on the
hysteresis band 0.5 ≤ accuracy < 0.8. -/
theorem adjust_difficulty_spec (d : String)
    (hd : d = "easy" ∨ d = "medium" ∨ d = "hard")
    (tr tc : ℕ) (htc : tc ≤ tr) :
    (tr < 3 → adjust_difficulty d tr tc = d) ∧
    (3 ≤ tr →
      ((tc : ℚ) / (tr : ℚ) ≥ 0.8 → adjust_difficulty d tr tc = promoteTier d) ∧
      ((tc : ℚ) / (tr : ℚ) < 0.5 → adjust_difficulty d tr tc = demoteTier d) ∧
      (0.5 ≤ (tc : ℚ) / (tr : ℚ) → (tc : ℚ) / (tr : ℚ) < 0.8 →
        adjust_difficulty d tr tc = d)) := by
  constructor
  · intro h
    simp [adjust_difficulty, h]
  · intro h3
    have hn : ¬ tr < 3 := by omega
    rcases hd with rfl | rfl | rfl
    · rw [adjust_easy tr tc hn]
      refine ⟨fun ha => ?_, fun ha => ?_, fun hl hu => ?_⟩
      · rw [if_pos ha]; rfl
      · rw [if_neg (by intro hc; rw [ge_iff_le] at hc; linarith)]; rfl
      · rw [if_neg (by intro hc; rw [ge_iff_le] at hc; linarith)]
    · rw [adjust_medium tr tc hn]
      refine ⟨fun ha => ?_, fun ha => ?_, fun hl hu => ?_⟩
      · rw [if_pos ha]; rfl
      · rw [if_neg (by intro hc; rw [ge_iff_le] at hc; linarith), if_pos ha]; rfl
      · rw [if_neg (by intro hc; rw [ge_iff_le] at hc; linarith),
          if_neg (by intro hc; linarith)]
    · rw [adjust_hard tr tc hn]
      refine ⟨fun ha => ?_, fun ha => ?_, fun hl hu => ?_⟩
      · rw [ge_iff_le] at ha
        rw [if_neg (by intro hc; linarith)]; rfl
      · rw [if_pos ha]; rfl
      · rw [if_neg (by intro hc; linarith)]

/-- Witness for C8: a `medium` card with 4 correct reviews out of 4 is
promoted one tier. -/
theorem adjust_difficulty_spec_witness :
    adjust_difficulty "medium" 4 4 = promoteTier "medium" :=
  ((adjust_difficulty_spec "medium" (Or.inr (Or.inl rfl)) 4 4 (by decide)).2
    (by decide)).1 (by norm_num)

end SmartPath

namespace SmartPath

/-! ## Claim C6: trend classification against the OLS slope -/

/-- The two equivalent phrasings of the zero-denominator guard. -/
lemma guard_swap (p x : ℚ) : (if p ≠ 0 then x else (0:ℚ)) = if p = 0 then 0 else x := by
  by_cases h : p = 0 <;> simp [h]

/-- With at least two points, `analyze_grade_trend` is the three-way
classification of `slopeOLS` against the ±0.1 thresholds. -/
lemma analyze_eq_classify (l : List ℚ) (h : 2 ≤ l.length) :
    analyze_grade_trend l =
      if slopeOLS l > 0.1 then "improving"
      else if slopeOLS l < -0.1 then "declining" else "stable" := by
  have hn : ¬ l.length < 2 := by omega
  rw [analyze_grade_trend, if_neg hn, slopeOLS]
  dsimp only []
  rw [guard_swap]

/-- Claim C6: for every grade history, `analyze_grade_trend` returns `stable`
when there are fewer than 2 points; otherwise, with slope the closed-form OLS
slope of value versus index (0 when the denominator vanishes), it returns
`improving` iff slope > 0.1, `declining` iff slope < −0.1, and `stable`
exactly otherwise. -/
theorem analyze_trend_spec (l : List ℚ) :
    (l.length < 2 → analyze_grade_trend l = "stable") ∧
    (2 ≤ l.length →
      (analyze_grade_trend l = "improving" ↔ slopeOLS l > 0.1) ∧
      (analyze_grade_trend l = "declining" ↔ slopeOLS l < -0.1) ∧
      (analyze_grade_trend l = "stable" ↔
        ¬ slopeOLS l > 0.1 ∧ ¬ slopeOLS l < -0.1)) := by
  constructor
  · intro h
    simp [analyze_grade_trend, h]
  · intro h
    rw [analyze_eq_classify l h]
    split_ifs with h1 h2
    · exact ⟨⟨fun _ => h1, fun _ => rfl⟩,
        ⟨fun hc => absurd hc (by decide), fun hc => absurd h1 (by linarith)⟩,
        ⟨fun hc => absurd hc (by decide), fun hc => absurd h1 hc.1⟩⟩
    · exact ⟨⟨fun hc => absurd hc (by decide), fun hc => absurd hc h1⟩,
        ⟨fun _ => h2, fun _ => rfl⟩,
        ⟨fun hc => absurd hc (by decide), fun hc => absurd h2 hc.2⟩⟩
    · exact ⟨⟨fun hc => absurd hc (by decide), fun hc => absurd hc h1⟩,
        ⟨fun hc => absurd hc (by decide), fun hc => absurd hc h2⟩,
        ⟨fun _ => ⟨h1, h2⟩, fun _ => rfl⟩⟩

/-- Witness for C6: the history `[1, 5]` has OLS slope 4 and is classified as
improving. -/
theorem analyze_trend_spec_witness : analyze_grade_trend [1, 5] = "improving" :=
  ((analyze_trend_spec [1, 5]).2 (by decide)).1.mpr
    (by norm_num [slopeOLS, List.range_succ])

end SmartPath

namespace SmartPath

/-! ## Claim C4: range of the predicted next grade -/

/-- Counterexample for C4 as stated: the singleton history `[0.0]` (which the
system produces for an unrecognized grade string) is returned unchanged, and
`0.0` lies below the claimed range `[1.0, 12.0]`; only the `improving` and
`declining` branches clamp. -/
theorem predict_singleton_zero_counterexample :
    predict_next_grade [0] = 0 ∧ (0 : ℚ) < 1 := by
  constructor
  · norm_num [predict_next_grade]
  · norm_num

/-- The average of a non-empty list lies between bounds on its elements. -/
lemma avg_bounds (l : List ℚ) (hne : l ≠ []) (a b : ℚ)
    (h : ∀ x ∈ l, a ≤ x ∧ x ≤ b) :
    a ≤ l.sum / (l.length : ℚ) ∧ l.sum / (l.length : ℚ) ≤ b := by
  have hpos : (0:ℚ) < (l.length : ℚ) :=
    Nat.cast_pos.mpr (List.length_pos.mpr hne)
  constructor
  · rw [le_div_iff₀ hpos]
    calc a * (l.length : ℚ) = (l.length : ℚ) * a := mul_comm _ _
    _ = l.length • a := (nsmul_eq_mul _ _).symm
    _ ≤ l.sum := List.card_nsmul_le_sum l a (fun x hx => (h x hx).1)
  · rw [div_le_iff₀ hpos]
    calc l.sum ≤ l.length • b := List.sum_le_card_nsmul l b (fun x hx => (h x hx).2)
    _ = (l.length : ℚ) * b := nsmul_eq_mul _ _
    _ = b * (l.length : ℚ) := mul_comm _ _

/-- Claim C4 (amended): for every non-empty grade history all of whose
entries lie in the ordinal grade range `[1.0, 12.0]`, the value returned by
`predict_next_grade` lies in `[1.0, 12.0]`.  (As stated the claim fails:
histories containing the fail-soft value `0.0`, or values above 12, are not
clamped on the `stable` and singleton paths.) -/
theorem predict_next_grade_bounds (l : List ℚ) (hne : l ≠ [])
    (h : ∀ x ∈ l, 1 ≤ x ∧ x ≤ 12) :
    1 ≤ predict_next_grade l ∧ predict_next_grade l ≤ 12 := by
  rw [predict_next_grade, if_neg hne]
  by_cases h1 : l.length = 1
  · rw [if_pos h1]
    have h0 : 0 < l.length := List.length_pos.mpr hne
    rw [List.getD_eq_getElem l 0 h0]
    exact h _ (List.getElem_mem h0)
  · rw [if_neg h1]
    set m := l.drop (l.length - 3) with hm
    have hmlen : m.length = l.length - (l.length - 3) := List.length_drop _ _
    have hmne : m ≠ [] := by
      intro hc
      rw [hc] at hmlen
      simp at hmlen
      have := List.length_pos.mpr hne
      omega
    have hcast : (m.length : ℚ) = ((min 3 l.length : ℕ) : ℚ) := by
      rw [hmlen]; congr 1; omega
    have havg := avg_bounds m hmne 1 12 (fun x hx => h x (List.mem_of_mem_drop hx))
    rw [hcast] at havg
    have e12 : (12.0 : ℚ) = 12 := by norm_num
    have e1 : (1.0 : ℚ) = 1 := by norm_num
    have e05 : (0.5 : ℚ) = 1/2 := by norm_num
    have e03 : (0.3 : ℚ) = 3/10 := by norm_num
    dsimp only []
    rw [e12, e1, e05, e03]
    split_ifs with ht1 ht2
    · exact ⟨le_min (by norm_num) (by linarith [havg.1]), min_le_left _ _⟩
    · exact ⟨le_max_left _ _, max_le (by norm_num) (by linarith [havg.2])⟩
    · exact havg

/-- Witness for C4 (amended): on `[6, 7, 9]` the prediction stays within the
ordinal range. -/
theorem predict_next_grade_bounds_witness :
    1 ≤ predict_next_grade [6, 7, 9] ∧ predict_next_grade [6, 7, 9] ≤ 12 :=
  predict_next_grade_bounds [6, 7, 9] (by decide) (by decide)

end SmartPath

namespace SmartPath

/-! ## Claim C7: the study-hours allocation -/

/-- Looking up any member of a constant-valued association map yields that
constant. -/
lemma lookup_map_const (v : ℚ) : ∀ (l : List String) (s : String), s ∈ l →
    (l.map (fun x => (x, v))).lookup s = some v := by
  intro l
  induction l with
  | nil => intro s hs; cases hs
  | cons a t ih =>
    intro s hs
    by_cases hsa : s = a
    · subst hsa; simp [List.lookup]
    · have hmem : s ∈ t := by
        rcases List.mem_cons.mp hs with h | h
        · exact absurd h hsa
        · exact h
      have e : (s == a) = false := beq_eq_false_iff_ne.mpr hsa
      simp [List.lookup, e, ih s hmem]

/-- Counterexample for C7 as stated: with the default 90-day window a weak
subject is allocated `2.5 × 90 / 7 = 225/7 ≈ 32.14` hours, not 2.5, and the
allocated value scales with the exam date (7-day gap gives 2.5, 14-day gap
gives 5). -/
theorem study_hours_counterexample :
    calculate_study_hours_needed ["Math"] none 0 = [("Math", 225/7)] ∧
      (225 / 7 : ℚ) ≠ 2.5 ∧
      calculate_study_hours_needed ["Math"] (some 7) 0 = [("Math", 5/2)] ∧
      calculate_study_hours_needed ["Math"] (some 14) 0 = [("Math", 5)] := by
  refine ⟨?_, by norm_num, ?_, ?_⟩ <;> norm_num [calculate_study_hours_needed]

/-- Claim C7 (amended): every weak subject is mapped to the total
`2.5 × days_available / 7` hours — a fixed rate of 2.5 hours per week over
the available window — the same value for every subject and independent of
the number of subjects, but proportional to the days remaining before the
exam (90 by default or for non-positive gaps), not a constant 2.5. -/
theorem study_hours_per_subject (weak : List String) (exam : Option ℚ)
    (current : ℚ) (s : String) (hs : s ∈ weak) :
    (calculate_study_hours_needed weak exam current).lookup s =
      some (2.5 * ((days_available exam current : ℤ) : ℚ) / 7) := by
  rw [calculate_study_hours_needed, days_available]
  rw [if_neg (by
    intro hc
    rw [List.length_eq_zero] at hc
    subst hc
    cases hs)]
  exact lookup_map_const _ weak s hs

/-- Witness for C7 (amended): with a 14-day exam gap both subjects get
`2.5 × 14 / 7 = 5` hours. -/
theorem study_hours_per_subject_witness :
    (calculate_study_hours_needed ["Math", "Sci"] (some 14) 0).lookup "Math" =
        some (2.5 * ((days_available (some 14) 0 : ℤ) : ℚ) / 7) ∧
      days_available (some 14) 0 = 14 :=
  ⟨study_hours_per_subject ["Math", "Sci"] (some 14) 0 "Math" (by decide),
   by norm_num [days_available]⟩

end SmartPath

namespace SmartPath

/-! ## Claim C9: topic prioritization -/

/-- Spec-side score of a subject: the truncation toward zero (`int()`) of
`(12 − ordinal grade, defaulting to E) × (exam weight, defaulting to 1) × 10`.
For non-negative weights this coincides with the claimed floor. -/
def specScore (grades : List (String × String))
    (exam_weights : Option (List (String × ℚ))) (subject : String) : ℤ :=
  pyInt ((12.0 - grade_to_numeric ((grades.lookup subject).getD "E")) *
    (exam_weights.elim 1 fun ws => (ws.lookup subject).getD 1) * 10)

/-- Mapping with pointwise-equal functions gives equal lists. -/
lemma map_ext {α β : Type} (f g : α → β) (l : List α) (h : ∀ a, f a = g a) :
    l.map f = l.map g := by
  induction l with
  | nil => rfl
  | cons a t ih => simp [h a, ih]

/-- Function `prioritize_study_topics` is the stable descending merge sort of
the subjects scored by `specScore`. -/
lemma prioritize_eq_mergeSort (subjects : List String)
    (grades : List (String × String))
    (exam_weights : Option (List (String × ℚ))) :
    prioritize_study_topics subjects grades exam_weights =
      (subjects.map (fun s => (s, specScore grades exam_weights s))).mergeSort
        (fun a b => decide (b.2 ≤ a.2)) := by
  rw [prioritize_study_topics]
  congr 1
  refine map_ext _ _ _ (fun s => ?_)
  rcases exam_weights with _ | ws
  · simp only [specScore, Option.elim_none]
    refine congrArg (fun z => (s, pyInt z)) ?_
    ring
  · rcases hw : ws.lookup s with _ | w
    · simp only [specScore, Option.elim_some, hw, Option.getD_none]
      refine congrArg (fun z => (s, pyInt z)) ?_
      ring
    · simp only [specScore, Option.elim_some, hw, Option.getD_some]

/-- Counterexample for C9 as stated: with the negative exam weight `-3/4` on a
grade-E subject the code's `int()` truncates `-82.5` toward zero to `-82`,
while the claimed floor is `-83`. -/
theorem prioritize_floor_counterexample :
    prioritize_study_topics ["Math"] [("Math", "E")] (some [("Math", -3/4)]) =
        [("Math", -82)] ∧
      (⌊(12.0 - grade_to_numeric "E") * (-3/4) * 10⌋ : ℤ) = -83 ∧
      ((-82 : ℤ) ≠ -83) := by
  refine ⟨?_, ?_, by decide⟩
  · simp [prioritize_study_topics, grade_to_numeric, pyStrip, pyUpper, KENYAN_GRADE_SCALE,
      List.lookup, List.mergeSort]
    norm_num [pyInt]
    rw [Int.ceil_eq_iff] <;> norm_num
  · have hE : grade_to_numeric "E" = 1 := by
      simp [grade_to_numeric, pyStrip, pyUpper, KENYAN_GRADE_SCALE, List.lookup]
      norm_num
    rw [hE]
    rw [show ((12.0 : ℚ) - 1) * (-3/4) * 10 = -165/2 by norm_num]
    rw [Int.floor_eq_iff] <;> norm_num

/-- Claim C9 (amended): `prioritize_study_topics` assigns each subject the
integer score `specScore` — the truncation toward zero of
`(12 − ordinal(grade, default E)) × (exam weight, default 1) × 10`, which is
the claimed floor whenever the product is non-negative — and returns the
scored pairs sorted descending by score, with equal scores keeping the
subjects' encounter order: the output filtered to any fixed score equals the
encounter-order scored list filtered to that score. -/
theorem prioritize_spec (subjects : List String)
    (grades : List (String × String))
    (exam_weights : Option (List (String × ℚ))) :
    (prioritize_study_topics subjects grades exam_weights).Pairwise
        (fun a b => b.2 ≤ a.2) ∧
      ∀ q : ℤ,
        (prioritize_study_topics subjects grades exam_weights).filter
            (fun p => p.2 == q) =
          (subjects.map (fun s => (s, specScore grades exam_weights s))).filter
            (fun p => p.2 == q) := by
  have trans : ∀ (a b c : String × ℤ),
      (fun a b => decide (b.2 ≤ a.2)) a b → (fun a b => decide (b.2 ≤ a.2)) b c →
        (fun a b => decide (b.2 ≤ a.2)) a c := by
    intro a b c h1 h2
    simp only [decide_eq_true_eq] at h1 h2 ⊢
    exact le_trans h2 h1
  have total : ∀ (a b : String × ℤ),
      ((fun a b => decide (b.2 ≤ a.2)) a b || (fun a b => decide (b.2 ≤ a.2)) b a) = true := by
    intro a b
    rcases le_total b.2 a.2 with h | h <;> simp [h]
  rw [prioritize_eq_mergeSort]
  set scored := subjects.map (fun s => (s, specScore grades exam_weights s)) with hscored
  constructor
  · have hpw := List.sorted_mergeSort trans total scored
    exact hpw.imp (fun h => of_decide_eq_true h)
  · intro q
    set pq : String × ℤ → Bool := fun p => p.2 == q with hpq
    set c := scored.filter pq with hc
    have hcsub : List.Sublist c scored := List.filter_sublist _
    have hcq : ∀ p ∈ c, p.2 = q := by
      intro p hp
      have := (List.mem_filter.mp hp).2
      simpa [hpq] using this
    have hcpw : c.Pairwise (fun a b => decide (b.2 ≤ a.2) = true) := by
      refine List.pairwise_of_forall_mem_list (fun a ha b hb => ?_)
      rw [hcq a ha, hcq b hb]
      simp
    have hstab := List.sublist_mergeSort trans total hcpw hcsub
    have hperm : (scored.mergeSort (fun a b => decide (b.2 ≤ a.2))).Perm scored :=
      List.mergeSort_perm scored _
    have hpermf := hperm.filter pq
    have hsubf := hstab.filter pq
    have hcf : c.filter pq = c :=
      List.filter_eq_self.mpr (fun a ha => by rw [hpq]; simp [hcq a ha])
    rw [hcf] at hsubf
    refine (hsubf.eq_of_length ?_).symm
    exact (hpermf.length_eq).symm

end SmartPath
